import Mathlib

/-!
Verification of the life-organizer bot's intent-resolution and
task-state-reconciliation core, shallowly embedded from the Python source
(`bot.py`, `notion_integration.py`, `ai_categorizer.py`,
`voice_transcriber.py`).

External effects (the Notion store, the Groq classification /
transcription provider, the Telegram transport) are modelled as explicit
inputs: the store's query results are passed in as lists of items, and
each provider call's reply is passed in as an oracle value covering every
outcome the code distinguishes (HTTP error, timeout, exception, non-JSON
payload, parsed payload).  Pure helpers from the source are translated
directly.
-/

/-! ### Python string primitives used by the source -/

/-- Python `needle in hay` on lists of characters: `startsList hay needle`
is true when `needle` is a prefix of `hay`. -/
def startsList : List Char → List Char → Bool
  | _, [] => true
  | [], _ :: _ => false
  | a :: as, b :: bs => a == b && startsList as bs

/-- Python substring test `needle in hay` (contiguous substring). -/
def hasSubList (needle : List Char) : List Char → Bool
  | [] => needle.isEmpty
  | c :: t => startsList (c :: t) needle || hasSubList needle t

/-- Python `needle in hay` on strings. -/
def pyContains (hay needle : String) : Bool :=
  hasSubList needle.data hay.data

/-- Accumulator-style worker for `pySplit`: `acc` holds the current word
reversed. -/
def pySplitAux : List Char → List Char → List String
  | acc, [] => if acc.isEmpty then [] else [⟨acc.reverse⟩]
  | acc, c :: t =>
    if c.isWhitespace then
      if acc.isEmpty then pySplitAux [] t
      else (⟨acc.reverse⟩ : String) :: pySplitAux [] t
    else pySplitAux (c :: acc) t

/-- Python `str.split()` with no argument: split on whitespace runs,
dropping empty fragments. -/
def pySplit (s : String) : List String :=
  pySplitAux [] s.data

/-- Python `str.lower()` (ASCII model; characters outside A-Z are left
unchanged, as for the Arabic literals in the source). -/
def pyLower (s : String) : String :=
  ⟨s.data.map Char.toLower⟩

/-- Python `str.upper()` (ASCII model). -/
def pyUpper (s : String) : String :=
  ⟨s.data.map Char.toUpper⟩

/-- Python `str.strip()` with no argument. -/
def pyStrip (s : String) : String :=
  ⟨((s.data.dropWhile Char.isWhitespace).reverse.dropWhile
      Char.isWhitespace).reverse⟩

/-- Python slicing `s[:n]` (by code points). -/
def pyTake (s : String) (n : Nat) : String :=
  ⟨s.data.take n⟩

/-- Python `str.startswith`. -/
def pyStartsWith (s p : String) : Bool :=
  startsList s.data p.data

/-- Python `str.isdigit()` restricted to ASCII digits: nonempty and all
characters are digits. -/
def pyIsDigit (s : String) : Bool :=
  !s.isEmpty && s.data.all Char.isDigit

/-! ### Item model (Notion page as the code reads it)

The code reads a page's `properties` bag through chains such as
`props.get("Status", {}).get("select", {}).get("name", "No Status")`.
We model each property at the granularity the code observes:
`status = none` covers both a missing `Status` key and an empty select;
`title = none` covers a missing/empty `Name.title` array (both make the
code fall back to its defaults).  The three date-bearing keys the code
probes (`Date`, `Due Date`, `Deadline`) are modelled as
`Option (Option DateStart)`: the outer layer is key presence, the inner
layer is whether the key's `date` payload is non-null. -/

/-- A parsed Notion date start value: the code distinguishes day-only
strings (`YYYY-MM-DD`) from ISO strings carrying a time component.  We
model the former as an absolute day number, the latter as absolute
seconds. -/
inductive DateStart where
  | dayOnly (day : Int)
  | withTime (sec : Int)
deriving DecidableEq

structure NotionItem where
  id : String
  /-- `Name.title[0].text.content` when a usable title entry exists. -/
  title : Option String
  /-- `Status.select.name` when present. -/
  status : Option String
  /-- `Category.select.name` when present. -/
  category : Option String
  /-- `Priority.select.name` when present. -/
  priority : Option String
  dateP : Option (Option DateStart)
  dueDateP : Option (Option DateStart)
  deadlineP : Option (Option DateStart)
deriving DecidableEq

/-- Status name as the code extracts it (default `"No Status"`). -/
def statusName (it : NotionItem) : String :=
  it.status.getD "No Status"

/-- Title as the code extracts it (default `"Untitled"`). -/
def titleOf (it : NotionItem) : String :=
  it.title.getD "Untitled"

/-! ### `notion_integration.get_active_items`

The remote query returns every page (no server-side filter); the code
then keeps an item iff `status_name.lower() not in ["done", "completed",
"archived"]`.  The raw query result is the `raw` parameter. -/

def excludedStatuses : List String := ["done", "completed", "archived"]

def isActiveStatus (s : String) : Bool :=
  !(excludedStatuses.contains (pyLower s))

def get_active_items (raw : List NotionItem) : List NotionItem :=
  raw.filter (fun it => isActiveStatus (statusName it))

/-- Claim C3: for every item returned by the store, `listActive()`
excludes it iff its status name case-insensitively equals one of
`done`, `completed`, `archived`; any other status value — including an
absent status — leaves the item included. -/
theorem C3_active_filter (raw : List NotionItem) (it : NotionItem)
    (h : it ∈ raw) :
    (it ∈ get_active_items raw ↔
      ¬ (pyLower (it.status.getD "No Status") ∈ excludedStatuses)) ∧
    (it.status = none → it ∈ get_active_items raw) := by
  constructor
  · simp [get_active_items, isActiveStatus, statusName, List.mem_filter, h]
  · intro hs
    simp [get_active_items, List.mem_filter, h, isActiveStatus, statusName,
      hs, excludedStatuses]
    decide

/-- Concrete instantiation of `C3_active_filter`: an item with status
`"DONE"` is excluded, one with no status at all is included. -/
theorem C3_active_filter_witness :
    (let done : NotionItem :=
      ⟨"p1", some "Gym session", some "DONE", none, none, none, none, none⟩
     let fresh : NotionItem :=
      ⟨"p2", some "Call mom", none, none, none, none, none, none⟩
     let raw := [done, fresh]
     done ∉ get_active_items raw ∧ fresh ∈ get_active_items raw) := by
  intro done fresh raw
  constructor
  · intro hmem
    have h := (C3_active_filter raw done (by simp [raw])).1.mp hmem
    exact h (by decide)
  · exact (C3_active_filter raw fresh (by simp [raw])).2 rfl

/-! ### `bot.authorized_only` (claim C10)

`ALLOWED_USER_IDS = [int(x.strip()) for x in env.split(",") if
x.strip().isdigit()]`; the guard silently ignores a user iff the list is
non-empty and the user's id is not in it. -/

/-- Python `s.split(",")` (keeps empty fragments, unlike bare `split()`). -/
def pySplitCommaAux : List Char → List Char → List String
  | acc, [] => [⟨acc.reverse⟩]
  | acc, c :: t =>
    if c == ',' then (⟨acc.reverse⟩ : String) :: pySplitCommaAux [] t
    else pySplitCommaAux (c :: acc) t

def pySplitComma (s : String) : List String :=
  pySplitCommaAux [] s.data

/-- Python `int(s)` on a string of decimal digits. -/
def pyIntOfDigits (s : String) : Nat :=
  s.data.foldl (fun n c => n * 10 + (c.toNat - Char.toNat (Char.ofNat 48))) 0

def parseAllowedIds (env : String) : List Nat :=
  (((pySplitComma env).map pyStrip).filter pyIsDigit).map pyIntOfDigits

/-- `true` when the wrapped handler runs, `false` when the update is
silently ignored (`if ALLOWED_USER_IDS and user.id not in
ALLOWED_USER_IDS: return`). -/
def authorizedAllows (allowList : List Nat) (userId : Nat) : Bool :=
  allowList.isEmpty || allowList.contains userId

/-- Claim C10: an empty parsed allow-list admits every user, and a user is
silently ignored exactly when the allow-list is non-empty and does not
contain their id. -/
theorem C10_allowlist (env : String) (userId : Nat) :
    (parseAllowedIds env = [] → authorizedAllows (parseAllowedIds env) userId = true) ∧
    (authorizedAllows (parseAllowedIds env) userId = false ↔
      parseAllowedIds env ≠ [] ∧ userId ∉ parseAllowedIds env) := by
  constructor
  · intro h
    simp [authorizedAllows, h]
  · simp [authorizedAllows, List.isEmpty_iff, List.contains, List.elem_iff]

/-- Concrete instantiation of `C10_allowlist`: with
`ALLOWED_USER_IDS=" , abc"` nothing parses, so user 999 is admitted; with
`"123,456"`, user 999 is silently ignored. -/
theorem C10_allowlist_witness :
    authorizedAllows (parseAllowedIds " , abc") 999 = true ∧
    authorizedAllows (parseAllowedIds "123,456") 999 = false := by
  constructor
  · exact (C10_allowlist " , abc" 999).1 (by decide)
  · exact (C10_allowlist "123,456" 999).2.mpr (by constructor <;> decide)

/-! ### `bot.add_xp` — gamification ledger (claim C5)

`_user_xp` records `{xp, last_action, streak}`; `last_action` is stored
as an ISO date string, modelled as an absolute day number.  `today` is
`datetime.now().date()` as a day number. -/

structure XPUser where
  xp : Nat
  lastAction : Option Int
  streak : Nat
deriving DecidableEq

def add_xp (user : XPUser) (today : Int) (amount : Nat) : XPUser :=
  let streak1 :=
    match user.lastAction with
    | some lastDate =>
      let daysDiff := today - lastDate
      if daysDiff = 1 then user.streak + 1
      else if daysDiff > 1 then 1
      else user.streak
    | none => 1
  let xp1 := user.xp + amount
  let xp2 := if streak1 > 0 ∧ streak1 % 7 = 0 then xp1 + 50 else xp1
  { xp := xp2, lastAction := some today, streak := streak1 }

/-- Claim C5: streak transitions of `award(user, amount)` — no prior
action gives streak 1; prior action exactly yesterday increments; prior
action today leaves the streak unchanged; prior action two or more days
ago resets to 1. -/
theorem C5_streak_transitions (user : XPUser) (today : Int) (amount : Nat) :
    (user.lastAction = none → (add_xp user today amount).streak = 1) ∧
    (user.lastAction = some (today - 1) →
      (add_xp user today amount).streak = user.streak + 1) ∧
    (user.lastAction = some today →
      (add_xp user today amount).streak = user.streak) ∧
    (∀ lastDate, user.lastAction = some lastDate → today - lastDate ≥ 2 →
      (add_xp user today amount).streak = 1) := by
  refine ⟨fun h => by simp [add_xp, h], fun h => by simp [add_xp, h],
    fun h => by simp [add_xp, h], fun lastDate h hd => ?_⟩
  have h1 : ¬ (today - lastDate = 1) := by omega
  have h2 : today - lastDate > 1 := by omega
  simp [add_xp, h, h1, h2]

/-- Concrete instantiation of `C5_streak_transitions`: awards on day 10
(fresh), day 11 (increment), day 11 again (unchanged), then day 14
(reset). -/
theorem C5_streak_transitions_witness :
    (add_xp ⟨0, none, 0⟩ 10 5).streak = 1 ∧
    (add_xp ⟨5, some 10, 1⟩ 11 5).streak = 2 ∧
    (add_xp ⟨10, some 11, 2⟩ 11 5).streak = 2 ∧
    (add_xp ⟨15, some 11, 2⟩ 14 5).streak = 1 := by
  refine ⟨(C5_streak_transitions ⟨0, none, 0⟩ 10 5).1 rfl, ?_, ?_, ?_⟩
  · exact (C5_streak_transitions ⟨5, some 10, 1⟩ 11 5).2.1 (by norm_num)
  · exact (C5_streak_transitions ⟨10, some 11, 2⟩ 11 5).2.2.1 rfl
  · exact (C5_streak_transitions ⟨15, some 11, 2⟩ 14 5).2.2.2 11 rfl
      (by norm_num)

/-! ### `ai_categorizer.categorize_message` (claim C6)

The Groq chat call is modelled as an oracle `ProviderReply`: `failed`
covers a non-200 status (the code calls `raise_for_status`), a timeout,
or any other exception; `ok none` covers a 200 reply whose content is not
valid JSON (`json.loads` raises, landing in the same `except`); `ok
(some c)` is a parsed categorization payload. -/

structure Categorization where
  category : String
  /-- the source's `type` field -/
  itemType : String
  priority : String
  title : String
  summary : String
  suggestedAction : Option String
deriving DecidableEq

inductive ProviderReply where
  | failed
  | ok (payload : Option Categorization)
deriving DecidableEq

/-- The `user_message` actually sent to the provider (with attachment
notes appended); it only feeds the external call, never the fallback. -/
def userMessageOf (messageText : String) (hasImage hasFile : Bool) : String :=
  let m1 := if hasImage then
    messageText ++ "\n\n[Note: This message includes an image]" else messageText
  if hasFile then m1 ++ "\n\n[Note: This message includes a file/document]" else m1

/-- `reply` is the provider oracle, applied to the exact `user_message`
string the code posts. -/
def categorize_message (messageText : String) (hasImage hasFile : Bool)
    (apiKeySet : Bool) (reply : String → ProviderReply) : Categorization :=
  if !apiKeySet then
    { category := "Ideas", itemType := "Idea", priority := "Low",
      title := pyTake messageText 50, summary := messageText,
      suggestedAction := some "GROQ_API_KEY not configured - review manually" }
  else
    match reply (userMessageOf messageText hasImage hasFile) with
    | .ok (some c) => c
    | _ =>
      { category := "Ideas", itemType := "Idea", priority := "Low",
        title := pyTake messageText 50, summary := messageText,
        suggestedAction := some "Review and categorize manually" }

/-- Claim C6: `classify(text)` never raises (it is total over every
provider outcome), and on provider error, timeout, exception or non-JSON
payload it returns the deterministic fallback: category `Ideas`, type
`Idea`, priority `Low`, title = first 50 characters of the input,
summary = the raw input. -/
theorem C6_classification_fallback (messageText : String)
    (hasImage hasFile apiKeySet : Bool) (reply : String → ProviderReply)
    (hfail : reply (userMessageOf messageText hasImage hasFile) = .failed ∨
      reply (userMessageOf messageText hasImage hasFile) = .ok none) :
    (categorize_message messageText hasImage hasFile apiKeySet reply).category
        = "Ideas" ∧
    (categorize_message messageText hasImage hasFile apiKeySet reply).itemType
        = "Idea" ∧
    (categorize_message messageText hasImage hasFile apiKeySet reply).priority
        = "Low" ∧
    (categorize_message messageText hasImage hasFile apiKeySet reply).title
        = pyTake messageText 50 ∧
    (categorize_message messageText hasImage hasFile apiKeySet reply).summary
        = messageText := by
  rcases hfail with h | h <;> cases apiKeySet <;>
    simp [categorize_message, h]

/-- Concrete instantiation of `C6_classification_fallback`: a timed-out
provider call on input `"buy milk"` yields the fallback whose title
starts with `"buy milk"`. -/
theorem C6_classification_fallback_witness :
    (categorize_message "buy milk" false false true (fun _ => .failed)).category
        = "Ideas" ∧
    (categorize_message "buy milk" false false true (fun _ => .failed)).priority
        = "Low" ∧
    pyStartsWith
      (categorize_message "buy milk" false false true (fun _ => .failed)).title
      "buy milk" = true := by
  have h := C6_classification_fallback "buy milk" false false true
    (fun _ => .failed) (Or.inl rfl)
  refine ⟨h.1, h.2.2.1, ?_⟩
  rw [h.2.2.2.1]
  decide

/-! ### `bot.handle_text` pending-delete gate (claim C2)

`handle_text` first checks `pending_deletes`: `if user_id in
pending_deletes and text.upper() in ["YES", "نعم", "اي"]` it pops the
entry and calls `delete_item(page_id)`; `elif user_id in pending_deletes`
it pops the entry and cancels.  Only when the user has no pending entry
does the message reach the habit / management / categorization pipeline,
whose behaviour is abstracted here as the opaque event list `rest`
(claim C2 constrains only the gate). -/

inductive TextEvent where
  /-- `delete_item(page_id)` — archives the page in the store. -/
  | archive (pageId : String)
  | replyDeleted
  | replyDeleteFailed
  | replyCancelled
deriving DecidableEq

def confirmWords : List String := ["YES", "نعم", "اي"]

/-- Returns the user's new `pending_deletes` entry and the emitted
events; `delOk` is the store's answer to `delete_item`; `rest` is
whatever the downstream classification pipeline would do. -/
def handle_text_gate (pending : Option String) (text : String)
    (delOk : Bool) (rest : List TextEvent) :
    Option String × List TextEvent :=
  match pending with
  | some pageId =>
    if confirmWords.contains (pyUpper text) then
      (none, [.archive pageId,
        if delOk then .replyDeleted else .replyDeleteFailed])
    else
      (none, [.replyCancelled])
  | none => (none, rest)

/-- Counterexample to claim C2 as stated: the user holds a
PendingConfirmation for page `x1` and the next message is `"نعم"` — not
the word `"YES"` — yet the store is mutated: `archiveItem` runs instead
of the cancellation the claim requires for every non-`"YES"` message. -/
theorem C2_counterexample :
    ("نعم" ≠ "YES") ∧
    (handle_text_gate (some "x1") "نعم" true []).2 =
      [TextEvent.archive "x1", TextEvent.replyDeleted] := by
  exact ⟨by decide, rfl⟩

/-- Claim C2 (amended): for every user holding a PendingConfirmation for
item X, the very next text message removes the pending entry and
bypasses all habit/management/new-item classification; if the message's
uppercase form is one of the confirmation words `YES`, `نعم`, `اي`,
`archiveItem(X)` is called exactly once, and any other message cancels
with no store mutation. -/
theorem C2_pending_consumed (pageId text : String) (delOk : Bool)
    (rest : List TextEvent) :
    (handle_text_gate (some pageId) text delOk rest).1 = none ∧
    (∀ rest2,
      handle_text_gate (some pageId) text delOk rest2 =
        handle_text_gate (some pageId) text delOk rest) ∧
    (if confirmWords.contains (pyUpper text) then
      (handle_text_gate (some pageId) text delOk rest).2 =
        [.archive pageId,
          if delOk then .replyDeleted else .replyDeleteFailed]
    else
      (handle_text_gate (some pageId) text delOk rest).2 =
        [.replyCancelled]) := by
  refine ⟨?_, fun rest2 => rfl, ?_⟩ <;>
    by_cases h : pyUpper text ∈ confirmWords <;>
      simp [handle_text_gate, h]

/-! ### `voice_transcriber.transcribe_voice` and the voice route
(claim C9)

Every failure return of `transcribe_voice` is a bracketed sentinel
string; `handle_voice` decides "transcription failed" by
`transcription.startswith("[")` and then routes the note to the Brain
Dump fallback store instead of classifying it. -/

/-- Outcome of the Whisper HTTP call, as the code distinguishes them. -/
inductive WhisperReply where
  | noKey
  | errStatus (code : Nat)
  | timeout
  | exc (msg : String)
  | ok (text : String)
deriving DecidableEq

def transcribe_voice (reply : WhisperReply) : String :=
  match reply with
  | .noKey => "[Transcription failed: API key not configured]"
  | .errStatus code => "[Transcription failed: " ++ toString code ++ "]"
  | .timeout => "[Transcription failed: timeout]"
  | .exc msg => "[Transcription failed: " ++ msg ++ "]"
  | .ok text =>
    let transcription := pyStrip text
    if transcription = "" then "[Voice note was empty or inaudible]"
    else transcription

/-- Where `handle_voice` sends the transcription result. -/
inductive VoiceRoute where
  /-- saved to Brain Dump as a transcription failure, never classified -/
  | brainDumpFallback
  /-- continues into habit/management/new-item classification -/
  | classified (text : String)
deriving DecidableEq

def handle_voice_route (transcription : String) : VoiceRoute :=
  if pyStartsWith transcription "[" then .brainDumpFallback
  else .classified transcription

/-- Claim C9: the voice path treats a transcription as failed exactly
when it starts with `[` — every failure sentinel starts with `[` and is
routed to the Brain Dump fallback, and a genuinely successful
transcription whose stripped text happens to start with `[` is also
routed to the fallback and never classified. -/
theorem C9_bracket_sentinel :
    (∀ reply : WhisperReply, (∀ text, reply ≠ .ok text) →
      pyStartsWith (transcribe_voice reply) "[" = true ∧
      handle_voice_route (transcribe_voice reply) = .brainDumpFallback) ∧
    (∀ transcription : String,
      handle_voice_route transcription = .brainDumpFallback ↔
        pyStartsWith transcription "[" = true) ∧
    (∀ text : String, pyStartsWith (pyStrip text) "[" = true →
      handle_voice_route (transcribe_voice (.ok text)) = .brainDumpFallback) := by
  refine ⟨fun reply hne => ?_, fun transcription => ?_, fun text h => ?_⟩
  · cases reply with
    | ok text => exact absurd rfl (hne text)
    | noKey => exact ⟨by decide, by decide⟩
    | timeout => exact ⟨by decide, by decide⟩
    | errStatus code =>
      constructor <;>
        simp [transcribe_voice, handle_voice_route, pyStartsWith,
          String.data, startsList]
    | exc msg =>
      constructor <;>
        simp [transcribe_voice, handle_voice_route, pyStartsWith,
          String.data, startsList]
  · constructor
    · intro hr
      by_contra hb
      simp [handle_voice_route, hb] at hr
    · intro hb
      simp [handle_voice_route, hb]
  · have hne : pyStrip text ≠ "" := by
      intro he
      rw [he] at h
      exact absurd h (by decide)
    simp [transcribe_voice, handle_voice_route, hne, h]

/-- Concrete instantiation of `C9_bracket_sentinel`: the successful
transcription `"[music] call the dentist"` is misrouted to the Brain
Dump fallback. -/
theorem C9_bracket_sentinel_witness :
    handle_voice_route (transcribe_voice (.ok "[music] call the dentist"))
      = .brainDumpFallback := by
  exact C9_bracket_sentinel.2.2 "[music] call the dentist" (by decide)

/-! ### `bot.handle_management_command` and `ai_categorizer.ai_match_task`
(claim C1)

`ai_match_task` numbers the candidate tasks 1..n, asks the model for a
`task_number` (0 = no match) plus a confidence label, and returns
`task_map[task_num]` only when `task_num > 0 and task_num in task_map`;
every other outcome (missing key → 0, out-of-range index, non-JSON
reply, HTTP error, exception, missing API key) yields `None`.  The
model's reply is the oracle `aiReply`: `none` for any failed call,
`some (n, confidence)` for a parsed reply. -/

structure MgmtIntent where
  intent : String
  target : String
  category : Option String
  newPriority : Option String
deriving DecidableEq

def ai_match_task (apiKeySet : Bool) (tasks : List NotionItem)
    (aiReply : Option (Int × String)) : Option NotionItem :=
  if !apiKeySet || tasks.isEmpty then none
  else
    match aiReply with
    | none => none
    | some (taskNum, _confidence) =>
      if 0 < taskNum ∧ taskNum ≤ tasks.length then
        tasks[(taskNum - 1).toNat]?
      else none

/-- `notion_integration.get_items_by_category`: remote filter `Category
equals c` and `Status equals "Active"` (both exact). -/
def get_items_by_category (raw : List NotionItem) (c : String) :
    List NotionItem :=
  raw.filter (fun it => it.category == some c && it.status == some "Active")

/-- A store mutation or ledger action performed by the management
handler. -/
inductive Effect where
  | updateStatus (pageId status : String)
  | updatePriority (pageId priority : String)
  | logProgress (activity category : String)
  | awardXp (amount : Nat)
  | stagePendingDelete (pageId : String)
deriving DecidableEq

inductive MgmtOutcome where
  | queryCategoryEmpty (category : String)
  | queryCategoryList (items : List NotionItem)
  | queryAllEmpty
  | queryAllList (items : List NotionItem)
  /-- "No active items to manage." -/
  | noItems
  /-- "Couldn't find a matching task for '<target>'." -/
  | noMatch (target : String)
  | askDeleteConfirm (title : String)
  | completedOk (title : String)
  | updateFailed
  | priorityUpdated (title priority : String)
  | priorityUpdateFailed
  /-- unknown action string: the handler falls through every branch -/
  | noop
deriving DecidableEq

/-- `updOk` is the store's answer to the (single) `update_item` call a
branch may make. -/
def handle_management_command (intent : MgmtIntent) (raw : List NotionItem)
    (apiKeySet : Bool) (aiReply : Option (Int × String)) (updOk : Bool) :
    MgmtOutcome × List Effect :=
  let action := intent.intent
  if action = "query" then
    -- Python truthiness: both a missing and an empty category string
    -- select the all-items branch.
    match intent.category with
    | some c =>
      if c ≠ "" then
        let items := get_items_by_category raw c
        if items.isEmpty then (.queryCategoryEmpty c, [])
        else (.queryCategoryList items, [])
      else
        let items := get_active_items raw
        if items.isEmpty then (.queryAllEmpty, [])
        else (.queryAllList items, [])
    | none =>
      let items := get_active_items raw
      if items.isEmpty then (.queryAllEmpty, [])
      else (.queryAllList items, [])
  else
    let allItems := get_active_items raw
    if allItems.isEmpty then (.noItems, [])
    else
      match ai_match_task apiKeySet allItems aiReply with
      | none => (.noMatch intent.target, [])
      | some item =>
        let pageId := item.id
        let title := titleOf item
        if action = "delete" then
          (.askDeleteConfirm title, [.stagePendingDelete pageId])
        else if action = "complete" then
          if updOk then
            let categoryName := item.category.getD "General"
            (.completedOk title,
              [.updateStatus pageId "Done",
               .logProgress ("Completed: " ++ title) categoryName,
               .awardXp 25])
          else (.updateFailed, [.updateStatus pageId "Done"])
        else if action = "update_priority" then
          match intent.newPriority with
          | some p =>
            if p ≠ "" then
              if updOk then (.priorityUpdated title p, [.updatePriority pageId p])
              else (.priorityUpdateFailed, [.updatePriority pageId p])
            else (.priorityUpdateFailed, [])
          | none => (.priorityUpdateFailed, [])
        else (.noop, [])

/-- Claim C1: for delete/complete/update-priority intents, an empty set
of active items resolves to the "no items to manage" outcome with no
store mutation, independently of the semantic matcher's reply (the
matcher is never consulted); and whenever the matcher's reply carries
index 0 or an index outside `1..n`, or the matcher call failed outright,
the handler reports "no match" and performs no store mutation. -/
theorem C1_management_no_guess (intent : MgmtIntent) (raw : List NotionItem)
    (apiKeySet updOk : Bool)
    (hact : intent.intent = "delete" ∨ intent.intent = "complete" ∨
      intent.intent = "update_priority") :
    (get_active_items raw = [] →
      ∀ aiReply, handle_management_command intent raw apiKeySet aiReply updOk
        = (.noItems, [])) ∧
    (get_active_items raw ≠ [] →
      ∀ n conf, (n ≤ 0 ∨ (get_active_items raw).length < n) →
      handle_management_command intent raw apiKeySet (some (n, conf)) updOk
        = (.noMatch intent.target, [])) ∧
    (get_active_items raw ≠ [] →
      handle_management_command intent raw apiKeySet none updOk
        = (.noMatch intent.target, [])) := by
  obtain ⟨act, tgt, cat, np⟩ := intent
  have hq : act ≠ "query" := by
    rcases hact with h | h | h <;> simp_all
  refine ⟨fun hempty aiReply => ?_, fun hne n conf hn => ?_, fun hne => ?_⟩
  · simp [handle_management_command, hq, hempty]
  · have hmatch : ai_match_task apiKeySet (get_active_items raw)
        (some (n, conf)) = none := by
      have : ¬ (0 < n ∧ n ≤ (get_active_items raw).length) := by omega
      simp [ai_match_task, this]
    simp [handle_management_command, hq, hne, hmatch, List.isEmpty_iff]
  · have hmatch : ai_match_task apiKeySet (get_active_items raw) none
        = none := by
      simp [ai_match_task]
    simp [handle_management_command, hq, hne, hmatch, List.isEmpty_iff]

/-- Concrete instantiation of `C1_management_no_guess`: with one active
item and a matcher reply of index 5 (out of range 1..1) a delete intent
yields "no match" and no effects; with only a Done item in the store it
yields "no items to manage". -/
theorem C1_management_no_guess_witness :
    (let gym : NotionItem :=
      ⟨"p1", some "Gym session", some "Active", none, none, none, none, none⟩
     let doneIt : NotionItem :=
      ⟨"p2", some "Old task", some "Done", none, none, none, none, none⟩
     let intent : MgmtIntent := ⟨"delete", "gym", none, none⟩
     handle_management_command intent [gym] true (some (5, "high")) true
        = (.noMatch "gym", []) ∧
     handle_management_command intent [doneIt] true (some (1, "high")) true
        = (.noItems, [])) := by
  intro gym doneIt intent
  constructor
  · exact (C1_management_no_guess intent [gym] true true
      (Or.inl rfl)).2.1 (by decide) 5 "high" (by right; decide)
  · exact (C1_management_no_guess intent [doneIt] true true
      (Or.inl rfl)).1 (by decide) (some (1, "high"))

/-! ### `notion_integration.search_items` (claim C4)

Tier 1 posts a remote `Name contains query` filter; tier 2 retries with
the first stoplist-filtered lowercase token longer than 2 characters;
tier 3 fetches items whose remote `Status` equals `"Active"` exactly and
keeps those whose lowered title contains any query token longer than 2
characters.  The Notion `contains` title filter is case-insensitive, so
it is modelled as a case-insensitive substring test on the page title. -/

/-- Remote `{"property": "Name", "title": {"contains": q}}` filter. -/
def notionTitleHas (it : NotionItem) (q : String) : Bool :=
  pyContains (pyLower (it.title.getD "")) (pyLower q)

def skipWords : List String :=
  ["the", "a", "an", "my", "to", "change", "update", "set", "make",
   "mark", "delete", "remove"]

/-- `[w for w in query.lower().split() if w not in skip_words and
len(w) > 2]`. -/
def searchWords (query : String) : List String :=
  (pySplit (pyLower query)).filter
    (fun w => !skipWords.contains w && 2 < w.length)

def searchTier1 (store : List NotionItem) (query : String) :
    List NotionItem :=
  store.filter (fun it => notionTitleHas it query)

def searchTier2 (store : List NotionItem) (firstWord : String) :
    List NotionItem :=
  store.filter (fun it => notionTitleHas it firstWord)

/-- Strategy 3: remote `Status equals "Active"` filter, then the local
fuzzy match over the lowered title. -/
def searchTier3 (store : List NotionItem) (query : String) :
    List NotionItem :=
  (store.filter (fun it => it.status == some "Active")).filter
    (fun it => (pySplit (pyLower query)).any
      (fun w => 2 < w.length && pyContains (pyLower (it.title.getD "")) w))

/-- Strategy 1, then strategy 2 on the first remaining word (when one
exists and matches), then strategy 3, exactly as the source falls
through. -/
def search_items (store : List NotionItem) (query : String) :
    List NotionItem :=
  let results1 := searchTier1 store query
  if !results1.isEmpty then results1
  else
    match searchWords query with
    | firstWord :: _ =>
      let results2 := searchTier2 store firstWord
      if !results2.isEmpty then results2
      else searchTier3 store query
    | [] => searchTier3 store query

/-- Claim C4: `search(freeText)` returns the first non-empty tier's
results — tier 1 (full-query substring on titles), else tier 2
(substring on the first stoplist-filtered token longer than 2 chars),
else tier 3 (any active item whose title contains any query token longer
than 2 chars); a non-empty tier 2 is returned as-is, never tier 3. -/
theorem C4_search_tiering (store : List NotionItem) (query : String) :
    (searchTier1 store query ≠ [] →
      search_items store query = searchTier1 store query) ∧
    (searchTier1 store query = [] →
      ∀ w ws, searchWords query = w :: ws →
        (searchTier2 store w ≠ [] →
          search_items store query = searchTier2 store w) ∧
        (searchTier2 store w = [] →
          search_items store query = searchTier3 store query)) ∧
    (searchTier1 store query = [] → searchWords query = [] →
      search_items store query = searchTier3 store query) := by
  refine ⟨fun h1 => ?_, fun h1 w ws hw => ⟨fun h2 => ?_, fun h2 => ?_⟩,
    fun h1 hw => ?_⟩
  · have hb : (searchTier1 store query).isEmpty = false := by
      simpa [List.isEmpty_iff] using h1
    simp [search_items, hb]
  · have hb : (searchTier1 store query).isEmpty = true := by
      simpa [List.isEmpty_iff] using h1
    have hb2 : (searchTier2 store w).isEmpty = false := by
      simpa [List.isEmpty_iff] using h2
    simp [search_items, hb, hw, hb2]
  · have hb : (searchTier1 store query).isEmpty = true := by
      simpa [List.isEmpty_iff] using h1
    have hb2 : (searchTier2 store w).isEmpty = true := by
      simpa [List.isEmpty_iff] using h2
    simp [search_items, hb, hw, hb2]
  · have hb : (searchTier1 store query).isEmpty = true := by
      simpa [List.isEmpty_iff] using h1
    simp [search_items, hb, hw]

/-- Concrete instantiation of `C4_search_tiering`: the query
`"delete the gym"` has no full-substring title match, its first filtered
token is `"gym"`, and that token matches the stored title, so the search
returns the tier-2 results (here the `Gym session` item), not tier 3. -/
theorem C4_search_tiering_witness :
    (let gym : NotionItem :=
      ⟨"p1", some "Gym session", some "Active", none, none, none, none, none⟩
     search_items [gym] "delete the gym" = searchTier2 [gym] "gym" ∧
     searchTier2 [gym] "gym" = [gym]) := by
  intro gym
  refine ⟨?_, by decide⟩
  exact ((C4_search_tiering [gym] "delete the gym").2.1 (by decide)
    "gym" [] (by decide)).1 (by decide)

/-! ### `notion_integration.get_upcoming_deadlines` (claim C8)

The code reuses `get_active_items`, probes the property keys `Date`,
`Due Date`, `Deadline` in that order, skips items with no usable date
payload, computes `days_left` (calendar-day difference for date-only
values, `timedelta.days` — floor division by 86400 seconds — for
datetimes), keeps only `days_left >= -1`, sorts ascending by `days_left`
(Python's stable sort, modelled by a stable insertion sort) and truncates
to `limit`. -/

structure Clock where
  nowDay : Int
  nowSec : Int
deriving DecidableEq

/-- `props["Date"] or props["Due Date"] or props["Deadline"]`, first
present key wins; a present key with a null `date` payload is skipped
without falling through to the next key. -/
def usableDate (it : NotionItem) : Option DateStart :=
  match it.dateP with
  | some d => d
  | none =>
    match it.dueDateP with
    | some d => d
    | none =>
      match it.deadlineP with
      | some d => d
      | none => none

def daysLeftOf (clock : Clock) : DateStart → Int
  | .dayOnly day => day - clock.nowDay
  | .withTime sec => (sec - clock.nowSec).fdiv 86400

/-- The countdown string (`int()` truncates toward zero, hence
`Int.div`). -/
def formattedTimeOf (clock : Clock) (d : DateStart) (daysLeft : Int) :
    String :=
  match d with
  | .withTime sec =>
    let diffSeconds := sec - clock.nowSec
    let hours := diffSeconds.tdiv 3600
    if diffSeconds < 0 then "🔥 OVERDUE (" ++ toString hours.natAbs ++ "h)"
    else if hours < 24 then "💣 " ++ toString hours ++ "h LEFT"
    else toString daysLeft ++ " DAYS LEFT"
  | .dayOnly _ =>
    if daysLeft < 0 then "🔥 OVERDUE (" ++ toString daysLeft.natAbs ++ "d)"
    else if daysLeft = 0 then "💣 DUE TODAY"
    else toString daysLeft ++ " DAYS LEFT"

structure DeadlineView where
  id : String
  title : String
  date : DateStart
  daysLeft : Int
  formattedTime : String
deriving DecidableEq

/-- Stable insertion: a new element goes after every element with a
`daysLeft` key less than or equal to its own, as Python's stable
`list.sort` does. -/
def insertByDays (x : DeadlineView) : List DeadlineView → List DeadlineView
  | [] => [x]
  | y :: ys =>
    if y.daysLeft ≤ x.daysLeft then y :: insertByDays x ys
    else x :: y :: ys

def sortByDays : List DeadlineView → List DeadlineView
  | [] => []
  | x :: xs => insertByDays x (sortByDays xs)

def get_upcoming_deadlines (clock : Clock) (raw : List NotionItem)
    (limit : Nat) : List DeadlineView :=
  let items := get_active_items raw
  let deadlines := items.filterMap (fun it =>
    match usableDate it with
    | none => none
    | some d =>
      let daysLeft := daysLeftOf clock d
      if daysLeft ≥ -1 then
        some ⟨it.id, titleOf it, d, daysLeft, formattedTimeOf clock d daysLeft⟩
      else none)
  (sortByDays deadlines).take limit

theorem mem_insertByDays (x a : DeadlineView) (l : List DeadlineView) :
    a ∈ insertByDays x l ↔ a = x ∨ a ∈ l := by
  induction l with
  | nil => simp [insertByDays]
  | cons y ys ih =>
    by_cases h : y.daysLeft ≤ x.daysLeft
    · simp only [insertByDays, if_pos h, List.mem_cons, ih]
      tauto
    · simp only [insertByDays, if_neg h, List.mem_cons]

theorem mem_sortByDays (a : DeadlineView) (l : List DeadlineView) :
    a ∈ sortByDays l ↔ a ∈ l := by
  induction l with
  | nil => simp [sortByDays]
  | cons x xs ih => simp [sortByDays, mem_insertByDays, ih]

theorem pairwise_insertByDays (x : DeadlineView) (l : List DeadlineView)
    (h : l.Pairwise (fun a b => a.daysLeft ≤ b.daysLeft)) :
    (insertByDays x l).Pairwise (fun a b => a.daysLeft ≤ b.daysLeft) := by
  induction l with
  | nil => simp [insertByDays]
  | cons y ys ih =>
    rcases List.pairwise_cons.mp h with ⟨hy, hys⟩
    by_cases hc : y.daysLeft ≤ x.daysLeft
    · rw [insertByDays, if_pos hc]
      refine List.pairwise_cons.mpr ⟨?_, ih hys⟩
      intro b hb
      rcases (mem_insertByDays x b ys).mp hb with rfl | hb
      · exact hc
      · exact hy b hb
    · rw [insertByDays, if_neg hc]
      refine List.pairwise_cons.mpr ⟨?_, h⟩
      intro b hb
      rcases List.mem_cons.mp hb with rfl | hb
      · omega
      · have := hy b hb
        omega

theorem pairwise_sortByDays (l : List DeadlineView) :
    (sortByDays l).Pairwise (fun a b => a.daysLeft ≤ b.daysLeft) := by
  induction l with
  | nil => simp [sortByDays]
  | cons x xs ih => exact pairwise_insertByDays x (sortByDays xs) ih

/-- Claim C8: every view returned by `upcomingDeadlines(limit)` comes
from an active item bearing one of the recognized date fields and has
`days_left >= -1` (nothing more than 1 day overdue is shown); the list
is sorted ascending by days remaining and has length at most `limit`. -/
theorem C8_upcoming_deadlines (clock : Clock) (raw : List NotionItem)
    (limit : Nat) :
    (∀ d ∈ get_upcoming_deadlines clock raw limit,
      (∃ it ∈ get_active_items raw,
        d.id = it.id ∧ usableDate it = some d.date ∧
        d.daysLeft = daysLeftOf clock d.date) ∧
      d.daysLeft ≥ -1) ∧
    (get_upcoming_deadlines clock raw limit).Pairwise
      (fun a b => a.daysLeft ≤ b.daysLeft) ∧
    (get_upcoming_deadlines clock raw limit).length ≤ limit := by
  refine ⟨fun d hd => ?_, ?_, ?_⟩
  · have hd2 : d ∈ sortByDays ((get_active_items raw).filterMap (fun it =>
        match usableDate it with
        | none => none
        | some dd =>
          let daysLeft := daysLeftOf clock dd
          if daysLeft ≥ -1 then
            some ⟨it.id, titleOf it, dd, daysLeft,
              formattedTimeOf clock dd daysLeft⟩
          else none)) := by
      have := List.take_sublist limit
        (sortByDays ((get_active_items raw).filterMap (fun it =>
          match usableDate it with
          | none => none
          | some dd =>
            let daysLeft := daysLeftOf clock dd
            if daysLeft ≥ -1 then
              some ⟨it.id, titleOf it, dd, daysLeft,
                formattedTimeOf clock dd daysLeft⟩
            else none)))
      exact this.subset hd
    have hd3 := (mem_sortByDays d _).mp hd2
    rcases List.mem_filterMap.mp hd3 with ⟨it, hit, hf⟩
    cases husable : usableDate it with
    | none =>
      rw [husable] at hf
      exact absurd hf (by simp)
    | some dd =>
      rw [husable] at hf
      dsimp only at hf
      by_cases hge : daysLeftOf clock dd ≥ -1
      · rw [if_pos hge] at hf
        obtain rfl := Option.some_inj.mp hf
        exact ⟨⟨it, hit, rfl, husable, rfl⟩, hge⟩
      · rw [if_neg hge] at hf
        exact absurd hf (by simp)
  · exact List.Pairwise.sublist (List.take_sublist _ _)
      (pairwise_sortByDays _)
  · simp only [get_upcoming_deadlines]
    exact List.length_take_le limit _

/-- Concrete instantiation of `C8_upcoming_deadlines`: on day 100, an
active item due day 102 appears with 2 days left (a second item 3 days
overdue is filtered out), and the theorem's provenance, exclusion bound
and length bound hold for it. -/
theorem C8_upcoming_deadlines_witness :
    (let soon : NotionItem :=
      ⟨"p1", some "Pay rent", some "Active", none, none,
        some (some (.dayOnly 102)), none, none⟩
     let old : NotionItem :=
      ⟨"p2", some "Expired", some "Active", none, none,
        some (some (.dayOnly 97)), none, none⟩
     let clock : Clock := ⟨100, 8640000⟩
     let view : DeadlineView :=
      ⟨"p1", "Pay rent", .dayOnly 102, 2, "2 DAYS LEFT"⟩
     let result := get_upcoming_deadlines clock [soon, old] 3
     view ∈ result ∧
     ((∃ it ∈ get_active_items [soon, old],
        view.id = it.id ∧ usableDate it = some view.date ∧
        view.daysLeft = daysLeftOf clock view.date) ∧
      view.daysLeft ≥ -1) ∧
     result.length ≤ 3) := by
  intro soon old clock view result
  have hmem : view ∈ result := by decide
  exact ⟨hmem, (C8_upcoming_deadlines clock [soon, old] 3).1 view hmem,
    (C8_upcoming_deadlines clock [soon, old] 3).2.2⟩

/-! ### `bot.focus_complete` (claim C7)

While a focus session is active the conversation routes every
non-command text to `focus_complete`.  A non-completion message is
appended to `_focus_pending_tasks[user_id]` and no store call happens.
On a completion phrase the handler pops both the session and the backlog
(before any store call), marks the focused page Done, awards the focus
XP, then replays each queued text through `categorize_message` +
`add_to_life_areas`.  In the replay loop the code only replies
`"✅ Added: …"` (and awards XP) when `add_to_life_areas` returns an id,
and only replies `"⚠️ Failed to add: …"` from the `except` handler when
an exception is raised; a `None` return from `add_to_life_areas` —
the store signalling a failed write — produces no report at all and
the queued content is silently dropped (no Brain Dump fallback either,
unlike the main `handle_text` path). -/

structure FocusSession where
  task : String
  pageId : String
deriving DecidableEq

/-- Outcome of one replay iteration (`categorize_message` then
`add_to_life_areas`) for a queued text, as the code distinguishes them. -/
inductive ReplayResult where
  /-- categorization `c`, and the store returned a page id -/
  | created (c : Categorization) (notionId : String)
  /-- categorization `c`, but `add_to_life_areas` returned `None` -/
  | createReturnedNone (c : Categorization)
  /-- an exception was raised inside the `try` block -/
  | raised
deriving DecidableEq

inductive FocusEvent where
  /-- `update_item(page_id, {"status": "Done"})` -/
  | storeMarkDone (pageId : String)
  | awardXp (amount : Nat)
  | replyCompleted (task : String)
  /-- `add_to_life_areas` call for a queued text -/
  | storeCreate (title category : String)
  /-- `"✅ Added: <title> → <category>"` -/
  | reportAdded (title category : String)
  /-- `"⚠️ Failed to add: <text[:30]>..."` -/
  | reportFailed (textStart : String)
  | replyNoSession
  | replyQueuedNotice (pendingCount : Nat)
  | replyBreather
deriving DecidableEq

def completionWords : List String :=
  ["done", "finished", "complete", "تم", "خلص"]

/-- Whether an event is one of the per-item replay reports (`"✅ Added"`
or `"⚠️ Failed to add"`). -/
def isReportEvent : FocusEvent → Bool
  | .reportAdded _ _ => true
  | .reportFailed _ => true
  | _ => false

def replayEventsOf (replay : String → ReplayResult) (queuedText : String) :
    List FocusEvent :=
  match replay queuedText with
  | .created c _ =>
    [.storeCreate c.title c.category, .reportAdded c.title c.category,
     .awardXp 5]
  | .createReturnedNone c => [.storeCreate c.title c.category]
  | .raised => [.reportFailed (pyTake queuedText 30)]

/-- Returns the new focus session, the new queued backlog, and the
events emitted, in order. -/
def focus_complete (session : Option FocusSession) (backlog : List String)
    (text : String) (replay : String → ReplayResult) :
    Option FocusSession × List String × List FocusEvent :=
  if completionWords.contains (pyLower text) then
    match session with
    | some s =>
      let base := [FocusEvent.storeMarkDone s.pageId, .awardXp 25,
        .replyCompleted s.task]
      let replayEvents := (backlog.map (replayEventsOf replay)).flatten
      let tail := if backlog.isEmpty then [] else [FocusEvent.replyBreather]
      (none, [], base ++ replayEvents ++ tail)
    | none => (none, [], [.replyNoSession])
  else
    (session, backlog ++ [text], [.replyQueuedNotice (backlog.length + 1)])

/-- Claim C7, evaluated at its failing input.  The queueing half of the
claim holds: `"also call mom"` during focus is queued and no store
event is emitted.  But when `"done"` arrives and the replayed queued
item's `add_to_life_areas` returns `None`, the emitted trace ends after
the bare `storeCreate` attempt: there is no `reportAdded` and no
`reportFailed` event for the queued text, so the queued item is *not*
"reported individually (success or failure)" as the claim requires —
the content is silently dropped. -/
theorem C7_queued_replay_silent_drop :
    (let session : Option FocusSession := some ⟨"Write report", "pid1"⟩
     let fallbackCat : Categorization :=
      ⟨"Ideas", "Idea", "Low", "also call mom", "also call mom", none⟩
     let replay : String → ReplayResult :=
      fun _ => .createReturnedNone fallbackCat
     focus_complete session [] "also call mom" replay
        = (session, ["also call mom"], [.replyQueuedNotice 1]) ∧
     focus_complete session ["also call mom"] "done" replay
        = (none, [],
            [.storeMarkDone "pid1", .awardXp 25,
             .replyCompleted "Write report",
             .storeCreate "also call mom" "Ideas",
             .replyBreather]) ∧
     ((focus_complete session ["also call mom"] "done" replay).2.2.all
        (fun e => !isReportEvent e)) = true) := by
  intro session fallbackCat replay
  refine ⟨by decide, by decide, by decide⟩
